import Mathlib

/-!
Shallow embedding of the multi-tenant analytics service core
(server `/track`, `/track/batch`, `/events`, `/analytics/usage`,
`/analytics/funnel`, SSE broadcast; SDK client buffer; OpenSearch
service helpers), together with theorems checking the specification's
claims about it.

The server variant modelled is the full one (PostgreSQL + OpenSearch +
SSE broadcast).  External systems (PostgreSQL, OpenSearch, client
sockets) are modelled through an explicit failure environment: the
handler code paths themselves are translated statement by statement.
-/

namespace MultiTenantAnalytics

/-! ## Data model -/

/-- Request body of a track call: `event` is `none` when the JSON field is
absent; an empty string models `event: ""` (both are falsy in JS). -/
structure EventInput where
  event : Option String
  properties : List (String × String)
  userId : Option String
  sessionId : Option String
deriving DecidableEq

/-- A committed row of the `events` table.  `event_type` is `NOT NULL` in
the schema, so a stored row always carries a (possibly empty) string. -/
structure Row where
  id : Nat
  tenantId : String
  eventType : String
  properties : List (String × String)
  userId : Option String
  sessionId : Option String
  timestamp : Nat
deriving DecidableEq

/-- One registered SSE connection in `global.sseConnections`:
`broken` models a channel whose `res.write` throws. -/
structure Conn where
  id : Nat
  tenantId : String
  broken : Bool
deriving DecidableEq

/-- Failure environment for the external systems touched by a handler:
`insertFails k` says the k-th INSERT of the call raises a store error;
`indexFails` says the OpenSearch (bulk) index call raises; `now` is the
database clock assigning row timestamps. -/
structure Env where
  insertFails : Nat → Bool
  indexFails : Bool
  now : Nat

/-- HTTP-level outcome of a handler. -/
inductive Resp where
  | created (ids : List Nat)
  | badRequest
  | serverError
deriving DecidableEq

/-- Observable actions of one ingestion call, in execution order:
`hbegin`/`commit`/`rollback` are the transaction statements, `insert` a
successful row insert, `indexWrite` the OpenSearch mirror attempt
(recorded whether it succeeds or fails), `broadcast` one fan-out call. -/
inductive Action where
  | hbegin
  | insert (r : Row)
  | indexWrite (tenantId : String) (docs : List Row)
  | broadcast (tenantId : String) (r : Row)
  | commit
  | rollback
deriving DecidableEq

/-- Result of running a handler against a store, a hub and an id counter:
the durable store afterwards, the connection map afterwards, the list of
(connection, event) deliveries made, the HTTP response, and the trace. -/
structure HResult where
  store : List Row
  hub : List Conn
  delivered : List (Conn × Row)
  resp : Resp
  trace : List Action
deriving DecidableEq

/-! ## Realtime fan-out hub (`broadcastEvent`) -/

/-- `broadcastEvent` from the server: iterate the connection map; for a
connection of the same tenant attempt the SSE write; a throwing write
(broken connection) deletes the connection from the map; connections of
other tenants are untouched.  Returns the map afterwards and the
deliveries performed. -/
def broadcastEvent (tenantId : String) (r : Row) : List Conn → List Conn × List (Conn × Row)
  | [] => ([], [])
  | c :: rest =>
    let p := broadcastEvent tenantId r rest
    if c.tenantId = tenantId then
      if c.broken then (p.1, p.2)
      else (c :: p.1, (c, r) :: p.2)
    else (c :: p.1, p.2)

/-- The per-event `forEach` broadcast of the batch handler, threading the
connection map (deletions made by earlier events persist). -/
def broadcastAll (tenantId : String) : List Row → List Conn → List Conn × List (Conn × Row)
  | [], hub => (hub, [])
  | r :: rest, hub =>
    let p1 := broadcastEvent tenantId r hub
    let p2 := broadcastAll tenantId rest p1.1
    (p2.1, p1.2 ++ p2.2)

/-! ## Ingestion handlers -/

/-- `POST /track`: reject a falsy `event` (absent or empty string) with
400 before any effect; then BEGIN, INSERT, OpenSearch `indexEvent`,
`broadcastEvent`, COMMIT; any store or index error rolls back and
answers 500. -/
def trackOne (env : Env) (tenantId : String) (body : EventInput)
    (store : List Row) (hub : List Conn) (nextId : Nat) : HResult :=
  match body.event with
  | none => ⟨store, hub, [], Resp.badRequest, []⟩
  | some ty =>
    if ty = "" then ⟨store, hub, [], Resp.badRequest, []⟩
    else if env.insertFails 0 then
      ⟨store, hub, [], Resp.serverError, [Action.hbegin, Action.rollback]⟩
    else
      let r : Row := ⟨nextId, tenantId, ty, body.properties, body.userId, body.sessionId, env.now⟩
      if env.indexFails then
        ⟨store, hub, [], Resp.serverError,
          [Action.hbegin, Action.insert r, Action.indexWrite tenantId [r], Action.rollback]⟩
      else
        let p := broadcastEvent tenantId r hub
        ⟨store ++ [r], p.1, p.2, Resp.created [nextId],
          [Action.hbegin, Action.insert r, Action.indexWrite tenantId [r],
           Action.broadcast tenantId r, Action.commit]⟩

/-- The INSERT loop of `POST /track/batch`.  `k` is the position in the
batch (for the failure environment), `nextId` the id the store would
assign next.  The batch handler does no per-event validation: an absent
`event` field reaches the store and fails only through the schema's
`NOT NULL` constraint; an empty string is accepted.  Returns the insert
actions performed and `none` on the first raising insert. -/
def insertLoop (env : Env) (tenantId : String) :
    List EventInput → Nat → Nat → List Action × Option (List Row)
  | [], _, _ => ([], some [])
  | e :: rest, nextId, k =>
    if env.insertFails k then ([], none)
    else
      match e.event with
      | none => ([], none)
      | some ty =>
        let r : Row := ⟨nextId, tenantId, ty, e.properties, e.userId, e.sessionId, env.now⟩
        let p := insertLoop env tenantId rest (nextId + 1) (k + 1)
        (Action.insert r :: p.1, p.2.map (fun rs => r :: rs))

/-- `POST /track/batch`: reject an empty events array with 400; then
BEGIN, insert every event, `bulkIndexEvents`, broadcast each event,
COMMIT; any store or index error rolls the whole batch back and answers
500. -/
def trackBatch (env : Env) (tenantId : String) (events : List EventInput)
    (store : List Row) (hub : List Conn) (nextId : Nat) : HResult :=
  if events = [] then ⟨store, hub, [], Resp.badRequest, []⟩
  else
    let ir := insertLoop env tenantId events nextId 0
    match ir.2 with
    | none => ⟨store, hub, [], Resp.serverError, Action.hbegin :: ir.1 ++ [Action.rollback]⟩
    | some rows =>
      if env.indexFails then
        ⟨store, hub, [], Resp.serverError,
          Action.hbegin :: ir.1 ++ [Action.indexWrite tenantId rows, Action.rollback]⟩
      else
        let p := broadcastAll tenantId rows hub
        ⟨store ++ rows, p.1, p.2, Resp.created (rows.map Row.id),
          Action.hbegin :: ir.1 ++ [Action.indexWrite tenantId rows]
            ++ rows.map (fun r => Action.broadcast tenantId r) ++ [Action.commit]⟩

/-- An insert raising inside the batch loop: either the environment fails
the k-th INSERT, or the event has no type and the `NOT NULL` constraint
rejects it. -/
def insertRaises (env : Env) (e : EventInput) (k : Nat) : Prop :=
  env.insertFails k = true ∨ e.event = none

instance (env : Env) (e : EventInput) (k : Nat) : Decidable (insertRaises env e k) := by
  unfold insertRaises; infer_instance

/-! ## Trace ordering helpers -/

/-- Pipeline phase of an action inside one handler call, used to state
ordering facts about traces. -/
def phase : Action → Nat
  | Action.hbegin => 0
  | Action.insert _ => 1
  | Action.indexWrite _ _ => 2
  | Action.broadcast _ _ => 3
  | Action.commit => 4
  | Action.rollback => 4

def isInsert : Action → Bool
  | Action.insert _ => true
  | _ => false

def isIndexWrite : Action → Bool
  | Action.indexWrite _ _ => true
  | _ => false

def isBroadcast : Action → Bool
  | Action.broadcast _ _ => true
  | _ => false

def isCommit : Action → Bool
  | Action.commit => true
  | _ => false

/-- Every action of `tr` satisfying `p` occurs strictly before every
action satisfying `q`. -/
def ActsBefore (p q : Action → Bool) (tr : List Action) : Prop :=
  ∀ i j : Fin tr.length, p (tr.get i) = true → q (tr.get j) = true → (i : Nat) < (j : Nat)

instance (p q : Action → Bool) (tr : List Action) : Decidable (ActsBefore p q tr) := by
  unfold ActsBefore; infer_instance

/-- Phase monotonicity of a trace. -/
def PhaseSorted (tr : List Action) : Prop :=
  tr.Pairwise (fun a b => phase a ≤ phase b)

/-! ## Client batching buffer (SDK `Analytics.flush`) -/

/-- A queued event on the client. -/
structure ClientEvent where
  event : String
  userId : Option String
  sessionId : Option String
deriving DecidableEq

/-- Outcome of one `flush()` call: the batch posted (empty when the queue
was empty and nothing was sent), the queue afterwards, and whether the
error was rethrown to the caller. -/
structure FlushResult where
  sentBatch : List ClientEvent
  queueAfter : List ClientEvent
  failed : Bool
deriving DecidableEq

/-- SDK `flush`: an empty queue returns at once; otherwise the whole
queue is copied out, the queue is emptied, and the copy is posted as one
batch; on transport failure the copy is unshifted back in front of the
(emptied) queue and the error is rethrown. -/
def flush (eventQueue : List ClientEvent) (sendOk : Bool) : FlushResult :=
  if eventQueue = [] then ⟨[], eventQueue, false⟩
  else
    let events := eventQueue
    let emptied : List ClientEvent := []
    if sendOk then ⟨events, emptied, false⟩
    else ⟨events, events ++ emptied, true⟩

/-! ## OpenSearch service: search body construction -/

/-- JavaScript `v || d` for an optional numeric parameter: absent and `0`
are both falsy. -/
def jsOr (v : Option Nat) (d : Nat) : Nat :=
  match v with
  | none => d
  | some n => if n = 0 then d else n

/-- Query options accepted by `OpenSearchService.searchEvents`. -/
structure SearchQuery where
  eventType : Option String
  userId : Option String
  startDate : Option String
  endDate : Option String
  limit : Option Nat
  offset : Option Nat
  properties : List (String × String)
deriving DecidableEq

/-- One clause of the `bool.must` filter list. -/
inductive Clause where
  | tenantTerm (tenantId : String)
  | eventTypeTerm (eventType : String)
  | userIdTerm (userId : String)
  | timestampRange (gte lte : Option String)
  | propTerm (key value : String)
deriving DecidableEq

/-- The search request body: must clauses, `size` and `from`. -/
structure SearchBody where
  must : List Clause
  size : Nat
  fromOffset : Nat
deriving DecidableEq

/-- `OpenSearchService.searchEvents` body construction: always a tenant
term; optional event-type, user, time-range and property clauses;
`size: query.limit || 100`, `from: query.offset || 0`. -/
def searchEventsBody (tenantId : String) (q : SearchQuery) : SearchBody :=
  ⟨[Clause.tenantTerm tenantId]
      ++ (match q.eventType with | none => [] | some e => [Clause.eventTypeTerm e])
      ++ (match q.userId with | none => [] | some u => [Clause.userIdTerm u])
      ++ (if q.startDate.isSome || q.endDate.isSome
          then [Clause.timestampRange q.startDate q.endDate] else [])
      ++ q.properties.map (fun kv => Clause.propTerm kv.1 kv.2),
    jsOr q.limit 100,
    jsOr q.offset 0⟩

/-! ## OpenSearch service: funnel analysis -/

/-- An indexed document as seen by the funnel queries: `age` is how far
before "now" its timestamp lies, so the `now-window` range filter is
`age ≤ window`. -/
structure Doc where
  tenantId : String
  eventType : String
  userId : Option String
  age : Nat
deriving DecidableEq

/-- The `bool.must` filter of one funnel step query. -/
def docMatches (tenantId eventType : String) (timeWindow : Nat) (d : Doc) : Bool :=
  d.tenantId == tenantId && d.eventType == eventType && decide (d.age ≤ timeWindow)

/-- `hits.total.value` of one funnel step query: each step is counted
independently over the documents, not conditioned on earlier steps. -/
def stepCount (docs : List Doc) (tenantId eventType : String) (timeWindow : Nat) : Nat :=
  (docs.filter (docMatches tenantId eventType timeWindow)).length

/-- The `cardinality` aggregation on `user_id` of one step query. -/
def stepUniqueUsers (docs : List Doc) (tenantId eventType : String) (timeWindow : Nat) : Nat :=
  ((docs.filter (docMatches tenantId eventType timeWindow)).filterMap Doc.userId).dedup.length

/-- JavaScript `x.toFixed(2)` on an exactly-represented value: round to
the nearest hundredth, ties towards the larger value. -/
def toFixed2 (q : ℚ) : ℚ := ((⌊q * 100 + 1 / 2⌋ : ℤ) : ℚ) / 100

/-- JavaScript `x.toFixed(1)` on an exactly-represented value. -/
def toFixed1 (q : ℚ) : ℚ := ((⌊q * 10 + 1 / 2⌋ : ℤ) : ℚ) / 10

/-- One step of the funnel report. -/
structure FunnelStep where
  step : Nat
  event : String
  count : Nat
  unique_users : Nat
  conversion_rate : ℚ
deriving DecidableEq

/-- First pass of `getFunnelAnalysis`: one independent count query per
event type, conversion rate still unset. -/
def funnelRaw (docs : List Doc) (tenantId : String) (timeWindow : Nat) :
    List String → Nat → List FunnelStep
  | [], _ => []
  | ev :: rest, i =>
    ⟨i + 1, ev, stepCount docs tenantId ev timeWindow,
      stepUniqueUsers docs tenantId ev timeWindow, 0⟩
      :: funnelRaw docs tenantId timeWindow rest (i + 1)

/-- Second pass of `getFunnelAnalysis`: step 0 gets rate 100; a later
step gets `(count / count0 * 100).toFixed(2)` when the first step's
count is positive and `0` otherwise. -/
def applyConversion (c0 : Nat) : List FunnelStep → Nat → List FunnelStep
  | [], _ => []
  | st :: rest, i =>
    (if i = 0 then ⟨st.step, st.event, st.count, st.unique_users, 100⟩
     else
       ⟨st.step, st.event, st.count, st.unique_users,
         if 0 < c0 then toFixed2 ((st.count : ℚ) / (c0 : ℚ) * 100) else 0⟩)
      :: applyConversion c0 rest (i + 1)

/-- `OpenSearchService.getFunnelAnalysis` over a document set. -/
def getFunnelAnalysis (docs : List Doc) (tenantId : String)
    (events : List String) (timeWindow : Nat) : List FunnelStep :=
  let results := funnelRaw docs tenantId timeWindow events 0
  let c0 := match results with | [] => 0 | r :: _ => r.count
  applyConversion c0 results 0

/-- The amended funnel semantics stated directly: independent per-step
counts; step 0 rate 100; step i rate `toFixed2 (count i / count 0 * 100)`
when the first count is positive, else 0. -/
def funnelSpec (docs : List Doc) (tenantId : String)
    (events : List String) (timeWindow : Nat) : List FunnelStep :=
  let c0 := match events with | [] => 0 | e :: _ => stepCount docs tenantId e timeWindow
  (List.range events.length).map (fun i =>
    let ev := events.getD i ""
    let c := stepCount docs tenantId ev timeWindow
    ⟨i + 1, ev, c, stepUniqueUsers docs tenantId ev timeWindow,
      if i = 0 then 100
      else if 0 < c0 then toFixed2 ((c : ℚ) / (c0 : ℚ) * 100) else 0⟩)

/-! ## Usage growth rate (`GET /analytics/usage`) -/

/-- The growth-rate computation of the usage endpoint over the bucket
counts of `events_over_time`: split at `floor(length / 2)`, sum each
half, and when the first half is positive return the percentage change
rounded by `toFixed(1)`, else the number 0. -/
def getUsageGrowthRate (counts : List Nat) : ℚ :=
  let midPoint := counts.length / 2
  let firstHalf : Nat := (counts.take midPoint).foldl (· + ·) 0
  let secondHalf : Nat := (counts.drop midPoint).foldl (· + ·) 0
  if 0 < firstHalf then
    toFixed1 (((secondHalf : ℚ) - (firstHalf : ℚ)) / (firstHalf : ℚ) * 100)
  else 0

/-- Modelled from the spec: the growth rate as the spec words it — the
exact percentage change between the half sums, 0 when the first half sum
is 0 — for comparison with the implementation. -/
def specGrowthRate (counts : List Nat) : ℚ :=
  let midPoint := counts.length / 2
  let firstHalf : Nat := (counts.take midPoint).foldl (· + ·) 0
  let secondHalf : Nat := (counts.drop midPoint).foldl (· + ·) 0
  if firstHalf = 0 then 0
  else ((secondHalf : ℚ) - (firstHalf : ℚ)) / (firstHalf : ℚ) * 100

/-! ## Concrete sample inputs used by counterexamples and witnesses -/

/-- Environment in which every external call succeeds. -/
def envOK : Env := ⟨fun _ => false, false, 7⟩

/-- Environment in which only the OpenSearch index write fails. -/
def envIndexDown : Env := ⟨fun _ => false, true, 7⟩

/-- Environment in which the second INSERT of a call fails. -/
def envInsert1Down : Env := ⟨fun k => k == 1, false, 7⟩

def evSignup : EventInput := ⟨some "signup", [("plan", "pro")], some "u1", none⟩

def evLogin : EventInput := ⟨some "login", [], some "u2", none⟩

def evEmptyType : EventInput := ⟨some "", [], some "u1", none⟩

def evNoType : EventInput := ⟨none, [], some "u1", none⟩

def connA : Conn := ⟨1, "tA", false⟩

def connABroken : Conn := ⟨2, "tA", true⟩

def connB : Conn := ⟨3, "tB", false⟩

/-- Documents giving funnel counts `[3, 1]` for steps `["a", "b"]`. -/
def funnelDocs : List Doc :=
  [⟨"t", "a", some "u1", 0⟩, ⟨"t", "a", some "u2", 0⟩,
   ⟨"t", "a", some "u3", 0⟩, ⟨"t", "b", some "u1", 0⟩]

def fallbackStep : FunnelStep := ⟨0, "", 0, 0, 0⟩

/-- A concrete committed row used by witnesses. -/
def rowSignup : Row := ⟨1, "tA", "signup", [("plan", "pro")], some "u1", none, 7⟩

/-- A three-event client queue used by the flush witness. -/
def queue3 : List ClientEvent :=
  [⟨"e1", none, none⟩, ⟨"e2", none, none⟩, ⟨"e3", none, none⟩]

/-! ## Helper lemmas -/

theorem phase_le_four (a : Action) : phase a ≤ 4 := by
  cases a <;> simp [phase]

/-- Soundness of one broadcast: every delivery went to a live connection
of the broadcast tenant that was registered in the map, and carried the
broadcast row. -/
theorem broadcastEvent_delivered_sound {t : String} {r : Row} {hub : List Conn} {c : Conn} {x : Row}
    (h : (c, x) ∈ (broadcastEvent t r hub).2) :
    c.tenantId = t ∧ x = r ∧ c ∈ hub ∧ c.broken = false := by
  induction hub with
  | nil => simp [broadcastEvent] at h
  | cons d rest ih =>
    by_cases ht : d.tenantId = t
    · by_cases hb : d.broken
      · simp [broadcastEvent, ht, hb] at h
        rcases ih h with ⟨h1, h2, h3, h4⟩
        exact ⟨h1, h2, List.mem_cons_of_mem _ h3, h4⟩
      · simp [broadcastEvent, ht, hb] at h
        rcases h with ⟨hc, hx⟩ | h
        · exact ⟨hc ▸ ht, hx, by simp [hc], by simp [hc, hb]⟩
        · rcases ih h with ⟨h1, h2, h3, h4⟩
          exact ⟨h1, h2, List.mem_cons_of_mem _ h3, h4⟩
    · simp [broadcastEvent, ht] at h
      rcases ih h with ⟨h1, h2, h3, h4⟩
      exact ⟨h1, h2, List.mem_cons_of_mem _ h3, h4⟩

/-- Completeness of one broadcast: every live connection of the
broadcast tenant receives the row. -/
theorem broadcastEvent_delivered_complete {t : String} {r : Row} {hub : List Conn} {c : Conn}
    (hm : c ∈ hub) (ht : c.tenantId = t) (hb : c.broken = false) :
    (c, r) ∈ (broadcastEvent t r hub).2 := by
  induction hub with
  | nil => simp at hm
  | cons d rest ih =>
    rcases List.mem_cons.mp hm with hdc | hmem
    · subst hdc
      simp [broadcastEvent, ht, hb]
    · by_cases hdt : d.tenantId = t
      · by_cases hdb : d.broken
        · simpa [broadcastEvent, hdt, hdb] using ih hmem
        · simp [broadcastEvent, hdt, hdb]
          exact Or.inr (ih hmem)
      · simpa [broadcastEvent, hdt] using ih hmem

/-- A broken connection of the broadcast tenant is removed from the map
by the failed write. -/
theorem broadcastEvent_removes_broken {t : String} {r : Row} {hub : List Conn} {c : Conn}
    (ht : c.tenantId = t) (hb : c.broken = true) :
    c ∉ (broadcastEvent t r hub).1 := by
  induction hub with
  | nil => simp [broadcastEvent]
  | cons d rest ih =>
    by_cases hdt : d.tenantId = t
    · by_cases hdb : d.broken
      · simpa [broadcastEvent, hdt, hdb] using ih
      · simp [broadcastEvent, hdt, hdb]
        refine ⟨?_, ih⟩
        intro hcd
        subst hcd
        exact absurd hb (by simp [hdb])
    · simp [broadcastEvent, hdt]
      refine ⟨?_, ih⟩
      intro hcd
      subst hcd
      exact absurd ht hdt

/-- Soundness of the batch broadcast loop. -/
theorem broadcastAll_delivered_sound {t : String} {rows : List Row} {hub : List Conn}
    {c : Conn} {x : Row} (h : (c, x) ∈ (broadcastAll t rows hub).2) :
    c.tenantId = t ∧ x ∈ rows := by
  induction rows generalizing hub with
  | nil => simp [broadcastAll] at h
  | cons r rest ih =>
    simp only [broadcastAll, List.mem_append] at h
    rcases h with h | h
    · rcases broadcastEvent_delivered_sound h with ⟨h1, h2, _, _⟩
      exact ⟨h1, by simp [h2]⟩
    · rcases ih h with ⟨h1, h2⟩
      exact ⟨h1, by simp [h2]⟩

/-- Every action recorded by the batch insert loop is a row insert. -/
theorem insertLoop_acts_insert {env : Env} {t : String} :
    ∀ (evs : List EventInput) (nextId k : Nat) (a : Action),
      a ∈ (insertLoop env t evs nextId k).1 → phase a = 1 := by
  intro evs
  induction evs with
  | nil => intro nextId k a ha; simp [insertLoop] at ha
  | cons e rest ih =>
    intro nextId k a ha
    by_cases hf : env.insertFails k
    · simp [insertLoop, hf] at ha
    · rcases he : e.event with _ | ty
      · simp [insertLoop, hf, he] at ha
      · simp only [insertLoop, hf, he, if_neg, Bool.false_eq_true, not_false_eq_true,
          if_false] at ha
        simp at ha
        rcases ha with ha | ha
        · simp [ha, phase]
        · exact ih (nextId + 1) (k + 1) a ha

/-- If some event of the batch makes its insert raise, the insert loop
aborts. -/
theorem insertLoop_none_of_raises {env : Env} {t : String} :
    ∀ (evs : List EventInput) (nextId k : Nat),
      (∃ i : Fin evs.length, insertRaises env (evs.get i) (k + i)) →
      (insertLoop env t evs nextId k).2 = none := by
  intro evs
  induction evs with
  | nil => intro nextId k h; exact absurd h.choose.isLt (by simp)
  | cons e rest ih =>
    intro nextId k h
    by_cases hf : env.insertFails k
    · simp [insertLoop, hf]
    · rcases he : e.event with _ | ty
      · simp [insertLoop, hf, he]
      · simp only [insertLoop, hf, he, Bool.false_eq_true, not_false_eq_true, if_false]
        rcases h with ⟨i, hi⟩
        rcases i with ⟨iv, hiv⟩
        cases iv with
        | zero =>
          exfalso
          simp [insertRaises, hf, he] at hi
        | succ n =>
          have : (insertLoop env t rest (nextId + 1) (k + 1)).2 = none := by
            apply ih (nextId + 1) (k + 1)
            refine ⟨⟨n, by simpa using hiv⟩, ?_⟩
            simpa [Nat.add_assoc, Nat.add_comm 1 n] using hi
          simp [this]

/-- If no event of the batch makes its insert raise, the insert loop
succeeds. -/
theorem insertLoop_some_of_ok {env : Env} {t : String} :
    ∀ (evs : List EventInput) (nextId k : Nat),
      (∀ i : Fin evs.length, ¬ insertRaises env (evs.get i) (k + i)) →
      ∃ rows, (insertLoop env t evs nextId k).2 = some rows := by
  intro evs
  induction evs with
  | nil => intro nextId k _; exact ⟨[], by simp [insertLoop]⟩
  | cons e rest ih =>
    intro nextId k h
    have h0 := h ⟨0, by simp⟩
    simp [insertRaises] at h0
    rcases h0 with ⟨hf, he⟩
    rcases hty : e.event with _ | ty
    · exact absurd hty he
    · have hrest : ∀ i : Fin rest.length, ¬ insertRaises env (rest.get i) (k + 1 + i) := by
        intro i
        have := h ⟨i + 1, by simp⟩
        simpa [Nat.add_assoc, Nat.add_comm 1 (i : Nat)] using this
      rcases ih (nextId + 1) (k + 1) hrest with ⟨rows, hrows⟩
      refine ⟨⟨nextId, t, ty, e.properties, e.userId, e.sessionId, env.now⟩ :: rows, ?_⟩
      simp [insertLoop, hf, hty, hrows]


theorem pairwise_phase_const (c : Nat) {l : List Action} (h : ∀ a ∈ l, phase a = c) :
    l.Pairwise (fun a b => phase a ≤ phase b) := by
  induction l with
  | nil => simp
  | cons x xs ih =>
    rw [List.pairwise_cons]
    refine ⟨?_, ih fun a ha => h a (List.mem_cons_of_mem _ ha)⟩
    intro b hb
    rw [h x (List.mem_cons_self _ _), h b (List.mem_cons_of_mem _ hb)]

theorem phase_map_broadcast {t : String} {rows : List Row} {a : Action}
    (ha : a ∈ rows.map (fun r => Action.broadcast t r)) : phase a = 3 := by
  rcases List.mem_map.mp ha with ⟨r, _, rfl⟩
  simp [phase]

/-- In a phase-sorted trace, actions of a strictly smaller phase class
come strictly before actions of a larger one. -/
theorem actsBefore_of_phaseSorted {tr : List Action} {p q : Action → Bool}
    (hs : PhaseSorted tr)
    (hpq : ∀ a b, p a = true → q b = true → phase a < phase b) :
    ActsBefore p q tr := by
  intro i j hpi hqj
  rcases Nat.lt_trichotomy (i : Nat) (j : Nat) with h | h | h
  · exact h
  · exfalso
    have hij : i = j := Fin.ext h
    subst hij
    exact absurd (hpq _ _ hpi hqj) (lt_irrefl _)
  · exfalso
    have hle := List.pairwise_iff_get.mp hs j i (Fin.lt_def.mpr h)
    have hlt := hpq _ _ hpi hqj
    omega

/-- Every trace of the single-event handler is phase sorted. -/
theorem phaseSorted_trackOne (env : Env) (t : String) (e : EventInput)
    (store : List Row) (hub : List Conn) (nextId : Nat) :
    PhaseSorted (trackOne env t e store hub nextId).trace := by
  obtain ⟨ev, props, uid, sid⟩ := e
  rcases ev with _ | ty
  · simp [trackOne, PhaseSorted]
  · by_cases h1 : ty = ""
    · simp [trackOne, h1, PhaseSorted]
    · by_cases h2 : env.insertFails 0
      · simp [trackOne, h1, h2, PhaseSorted, phase, List.pairwise_cons]
      · by_cases h3 : env.indexFails
        · simp [trackOne, h1, h2, h3, PhaseSorted, phase, List.pairwise_cons]
        · simp [trackOne, h1, h2, h3, PhaseSorted, phase, List.pairwise_cons]

/-- Every trace of the batch handler is phase sorted. -/
theorem phaseSorted_trackBatch (env : Env) (t : String) (events : List EventInput)
    (store : List Row) (hub : List Conn) (nextId : Nat) :
    PhaseSorted (trackBatch env t events store hub nextId).trace := by
  by_cases h0 : events = []
  · simp [trackBatch, h0, PhaseSorted]
  · have hacts : ∀ a ∈ (insertLoop env t events nextId 0).1, phase a = 1 :=
      fun a ha => insertLoop_acts_insert events nextId 0 a ha
    rcases hres : (insertLoop env t events nextId 0).2 with _ | rows
    · have htr : (trackBatch env t events store hub nextId).trace
          = Action.hbegin :: ((insertLoop env t events nextId 0).1 ++ [Action.rollback]) := by
        simp [trackBatch, h0, hres]
      rw [PhaseSorted, htr, List.pairwise_cons]
      constructor
      · intro b _
        simp only [phase]
        exact Nat.zero_le _
      · apply List.pairwise_append.mpr
        refine ⟨pairwise_phase_const 1 hacts, by simp, ?_⟩
        intro a ha b hb
        simp at hb
        subst hb
        rw [hacts a ha]
        simp [phase]
    · by_cases h3 : env.indexFails
      · have htr : (trackBatch env t events store hub nextId).trace
            = Action.hbegin :: ((insertLoop env t events nextId 0).1
                ++ [Action.indexWrite t rows, Action.rollback]) := by
          simp [trackBatch, h0, hres, h3]
        rw [PhaseSorted, htr, List.pairwise_cons]
        constructor
        · intro b _
          simp only [phase]
          exact Nat.zero_le _
        · apply List.pairwise_append.mpr
          refine ⟨pairwise_phase_const 1 hacts, ?_, ?_⟩
          · simp [List.pairwise_cons, phase]
          · intro a ha b hb
            rw [hacts a ha]
            simp at hb
            rcases hb with hb | hb
            · subst hb
              simp [phase]
            · subst hb
              simp [phase]
      · have htr : (trackBatch env t events store hub nextId).trace
            = Action.hbegin :: ((insertLoop env t events nextId 0).1
                ++ ([Action.indexWrite t rows]
                  ++ (rows.map (fun r => Action.broadcast t r) ++ [Action.commit]))) := by
          simp [trackBatch, h0, hres, h3]
        rw [PhaseSorted, htr, List.pairwise_cons]
        constructor
        · intro b _
          simp only [phase]
          exact Nat.zero_le _
        · apply List.pairwise_append.mpr
          refine ⟨pairwise_phase_const 1 hacts, ?_, ?_⟩
          · apply List.pairwise_append.mpr
            refine ⟨by simp, ?_, ?_⟩
            · apply List.pairwise_append.mpr
              refine ⟨pairwise_phase_const 3 (fun a ha => phase_map_broadcast ha), by simp, ?_⟩
              intro a ha b hb
              simp at hb
              subst hb
              rw [phase_map_broadcast ha]
              simp [phase]
            · intro a ha b hb
              simp at ha
              subst ha
              rcases List.mem_append.mp hb with hb | hb
              · rw [phase_map_broadcast hb]
                simp [phase]
              · simp at hb
                subst hb
                simp [phase]
          · intro a ha b hb
            rw [hacts a ha]
            rcases List.mem_append.mp hb with hb | hb
            · simp at hb
              subst hb
              simp [phase]
            · rcases List.mem_append.mp hb with hb | hb
              · rw [phase_map_broadcast hb]
                omega
              · simp at hb
                subst hb
                simp [phase]

/-! ## Claim theorems -/

/-- C1 (counterexample): a single-event track call in which the durable
insert succeeds (the insert action is in the trace) but the index mirror
fails does NOT report success — it answers 500 and nothing stays in the
durable store, contradicting the claim that the call still reports
success with the event durably stored. -/
theorem C1_counterexample :
    Action.insert ⟨1, "tA", "signup", [("plan", "pro")], some "u1", none, 7⟩
        ∈ (trackOne envIndexDown "tA" evSignup [] [connA] 1).trace ∧
    (trackOne envIndexDown "tA" evSignup [] [connA] 1).resp = Resp.serverError ∧
    (trackOne envIndexDown "tA" evSignup [] [connA] 1).store = [] := by
  refine ⟨by decide, by decide, by decide⟩

/-- C1 (amended): a failure of the Aggregation Index mirror write aborts
the ingestion call: the durable transaction is rolled back (the store is
unchanged), nothing is broadcast, and the call reports failure — for the
single-event path and for the batch path alike. -/
theorem C1_amended :
    (∀ env t e store hub nextId ty, env.indexFails = true → e.event = some ty → ty ≠ "" →
        env.insertFails 0 = false →
      (trackOne env t e store hub nextId).resp = Resp.serverError ∧
      (trackOne env t e store hub nextId).store = store ∧
      (trackOne env t e store hub nextId).delivered = []) ∧
    (∀ env t events store hub nextId, env.indexFails = true → events ≠ [] →
        (∀ i : Fin events.length, ¬ insertRaises env (events.get i) i) →
      (trackBatch env t events store hub nextId).resp = Resp.serverError ∧
      (trackBatch env t events store hub nextId).store = store ∧
      (trackBatch env t events store hub nextId).delivered = []) := by
  constructor
  · intro env t e store hub nextId ty hidx hty hne hins
    simp [trackOne, hty, hne, hins, hidx]
  · intro env t events store hub nextId hidx hne hok
    rcases @insertLoop_some_of_ok env t events nextId 0 (fun i => by simpa using hok i) with
      ⟨rows, hrows⟩
    simp [trackBatch, hne, hrows, hidx]

/-- C1 (witness): the amended behaviour at concrete inputs. -/
theorem C1_witness :
    ((trackOne envIndexDown "tA" evSignup [] [connA] 5).resp = Resp.serverError ∧
      (trackOne envIndexDown "tA" evSignup [] [connA] 5).store = [] ∧
      (trackOne envIndexDown "tA" evSignup [] [connA] 5).delivered = []) ∧
    ((trackBatch envIndexDown "tA" [evLogin] [] [connA] 5).resp = Resp.serverError ∧
      (trackBatch envIndexDown "tA" [evLogin] [] [connA] 5).store = [] ∧
      (trackBatch envIndexDown "tA" [evLogin] [] [connA] 5).delivered = []) :=
  ⟨C1_amended.1 envIndexDown "tA" evSignup [] [connA] 5 "signup" rfl rfl (by decide) rfl,
   C1_amended.2 envIndexDown "tA" [evLogin] [] [connA] 5 rfl (by decide) (by decide)⟩

/-- C3: batch ingestion is all-or-nothing at the durable store — if any
insert of the batch raises, the whole transaction is rolled back, the
store is unchanged, no broadcast happens, and the call reports
failure. -/
theorem C3_batch_all_or_nothing (env : Env) (t : String) (events : List EventInput)
    (store : List Row) (hub : List Conn) (nextId : Nat)
    (h : ∃ i : Fin events.length, insertRaises env (events.get i) i) :
    (trackBatch env t events store hub nextId).resp = Resp.serverError ∧
    (trackBatch env t events store hub nextId).store = store ∧
    (trackBatch env t events store hub nextId).delivered = [] := by
  have hne : events ≠ [] := by
    rcases h with ⟨i, _⟩
    intro he
    subst he
    exact absurd i.isLt (by simp)
  have hnone : (insertLoop env t events nextId 0).2 = none := by
    apply insertLoop_none_of_raises
    rcases h with ⟨i, hi⟩
    exact ⟨i, by simpa using hi⟩
  simp [trackBatch, hne, hnone]

/-- C3 (witness): a two-event batch whose second insert fails persists
nothing and reports failure. -/
theorem C3_witness :
    (trackBatch envInsert1Down "tA" [evSignup, evLogin] [] [connA] 1).resp =
        Resp.serverError ∧
    (trackBatch envInsert1Down "tA" [evSignup, evLogin] [] [connA] 1).store = [] ∧
    (trackBatch envInsert1Down "tA" [evSignup, evLogin] [] [connA] 1).delivered = [] :=
  C3_batch_all_or_nothing envInsert1Down "tA" [evSignup, evLogin] [] [connA] 1
    ⟨⟨1, by decide⟩, by decide⟩

/-- C5 (counterexample): a batch containing one event whose type is the
empty string is NOT rejected with InvalidEvent — the batch handler does
no type validation, the call reports success and the empty-typed row is
durably stored, contradicting the claim for the batch path. -/
theorem C5_counterexample :
    (trackBatch envOK "tA" [evEmptyType] [] [] 1).resp = Resp.created [1] ∧
    (trackBatch envOK "tA" [evEmptyType] [] [] 1).store =
      [⟨1, "tA", "", [], some "u1", none, 7⟩] := by
  refine ⟨by decide, by decide⟩

/-- C5 (amended): the single-event path rejects an absent or empty type
with InvalidEvent (HTTP 400) and no effect at all; the batch path does
not validate types — an event with an absent type fails only through the
store's NOT NULL constraint, rolling the whole batch back with a store
error (HTTP 500, not InvalidEvent), while an empty-string type is
accepted and persisted. -/
theorem C5_amended :
    (∀ env t e store hub nextId, (e.event = none ∨ e.event = some "") →
      (trackOne env t e store hub nextId).resp = Resp.badRequest ∧
      (trackOne env t e store hub nextId).store = store ∧
      (trackOne env t e store hub nextId).delivered = [] ∧
      (trackOne env t e store hub nextId).trace = []) ∧
    (∀ env t events store hub nextId (i : Fin (List.length events)),
      (events.get i).event = none →
      (trackBatch env t events store hub nextId).resp = Resp.serverError ∧
      (trackBatch env t events store hub nextId).store = store ∧
      (trackBatch env t events store hub nextId).delivered = []) := by
  constructor
  · intro env t e store hub nextId h
    rcases h with h | h <;> simp [trackOne, h]
  · intro env t events store hub nextId i hi
    have hne : events ≠ [] := fun he => absurd i.isLt (by simp [he])
    have hnone : (insertLoop env t events nextId 0).2 = none := by
      apply insertLoop_none_of_raises
      exact ⟨i, Or.inr (by simpa using hi)⟩
    simp [trackBatch, hne, hnone]

/-- C5 (witness): the amended behaviour at concrete inputs. -/
theorem C5_witness :
    ((trackOne envOK "tA" evNoType [] [] 1).resp = Resp.badRequest ∧
      (trackOne envOK "tA" evNoType [] [] 1).store = [] ∧
      (trackOne envOK "tA" evNoType [] [] 1).delivered = [] ∧
      (trackOne envOK "tA" evNoType [] [] 1).trace = []) ∧
    ((trackBatch envOK "tA" [evNoType] [] [] 1).resp = Resp.serverError ∧
      (trackBatch envOK "tA" [evNoType] [] [] 1).store = [] ∧
      (trackBatch envOK "tA" [evNoType] [] [] 1).delivered = []) :=
  ⟨C5_amended.1 envOK "tA" evNoType [] [] 1 (Or.inl rfl),
   C5_amended.2 envOK "tA" [evNoType] [] [] 1 ⟨0, by decide⟩ rfl⟩

/-- C7: on a non-empty queue, flush sends the whole queue as one batch;
on transport failure the taken-out events are put back in front, leaving
the pending queue exactly equal to the pre-flush contents, and the error
is raised to the caller. -/
theorem C7_flush_failure_recovery (q : List ClientEvent) (h : q ≠ []) :
    (∀ sendOk, (flush q sendOk).sentBatch = q) ∧
    (flush q false).queueAfter = q ∧
    (flush q false).failed = true := by
  refine ⟨fun sendOk => ?_, ?_, ?_⟩
  · cases sendOk <;> simp [flush, h]
  · simp [flush, h]
  · simp [flush, h]

/-- C7 (witness): flushing the queue [e1, e2, e3] with a failing
transport restores exactly that queue and raises the error. -/
theorem C7_witness :
    (flush queue3 false).sentBatch = queue3 ∧
    (flush queue3 false).queueAfter = queue3 ∧
    (flush queue3 false).failed = true :=
  ⟨(C7_flush_failure_recovery queue3 (by decide)).1 false,
   (C7_flush_failure_recovery queue3 (by decide)).2.1,
   (C7_flush_failure_recovery queue3 (by decide)).2.2⟩

/-- C10: a supplied limit of 0 is falsy in the search body construction
and is replaced by the default 100, the same as an absent limit, and the
effective page size is always positive. -/
theorem C10_zero_limit_default :
    (∀ tenantId et u sd ed off props,
      searchEventsBody tenantId ⟨et, u, sd, ed, some 0, off, props⟩ =
        searchEventsBody tenantId ⟨et, u, sd, ed, none, off, props⟩) ∧
    (∀ tenantId et u sd ed off props,
      (searchEventsBody tenantId ⟨et, u, sd, ed, some 0, off, props⟩).size = 100) ∧
    (∀ tenantId q, 0 < (searchEventsBody tenantId q).size) := by
  refine ⟨fun _ _ _ _ _ _ _ => rfl, fun _ _ _ _ _ _ _ => rfl, ?_⟩
  intro tenantId q
  rcases q with ⟨et, u, sd, ed, lim, off, props⟩
  rcases lim with _ | n
  · simp [searchEventsBody, jsOr]
  · rcases Nat.eq_zero_or_pos n with hn | hn
    · simp [searchEventsBody, jsOr, hn]
    · have hn2 : n ≠ 0 := Nat.pos_iff_ne_zero.mp hn
      simpa [searchEventsBody, jsOr, hn2] using hn


/-- C2 (counterexample): in a concrete successful single-event call the
commit does NOT precede the index mirror write — the code runs the
mirror (and the broadcast) inside the transaction and commits last. -/
theorem C2_counterexample :
    ¬ ActsBefore isCommit isIndexWrite (trackOne envOK "tA" evSignup [] [] 1).trace := by
  decide

/-- C2 (amended): within every ingestion call (single or batch), the
durable INSERTs precede the index mirror attempt, the mirror attempt
(success or failure) precedes any broadcast, and any broadcast precedes
the transaction COMMIT — i.e. the durable commit comes last, after the
mirror and the broadcast, not before them. -/
theorem C2_amended :
    (∀ env t e store hub nextId,
      ActsBefore isInsert isIndexWrite (trackOne env t e store hub nextId).trace ∧
      ActsBefore isIndexWrite isBroadcast (trackOne env t e store hub nextId).trace ∧
      ActsBefore isBroadcast isCommit (trackOne env t e store hub nextId).trace) ∧
    (∀ env t events store hub nextId,
      ActsBefore isInsert isIndexWrite (trackBatch env t events store hub nextId).trace ∧
      ActsBefore isIndexWrite isBroadcast (trackBatch env t events store hub nextId).trace ∧
      ActsBefore isBroadcast isCommit (trackBatch env t events store hub nextId).trace) := by
  have hp1 : ∀ a b : Action, isInsert a = true → isIndexWrite b = true → phase a < phase b := by
    intro a b ha hb
    cases a <;> try simp [isInsert] at ha
    cases b <;> try simp [isIndexWrite] at hb
    norm_num [phase]
  have hp2 : ∀ a b : Action, isIndexWrite a = true → isBroadcast b = true →
      phase a < phase b := by
    intro a b ha hb
    cases a <;> try simp [isIndexWrite] at ha
    cases b <;> try simp [isBroadcast] at hb
    norm_num [phase]
  have hp3 : ∀ a b : Action, isBroadcast a = true → isCommit b = true → phase a < phase b := by
    intro a b ha hb
    cases a <;> try simp [isBroadcast] at ha
    cases b <;> try simp [isCommit] at hb
    norm_num [phase]
  constructor
  · intro env t e store hub nextId
    exact ⟨actsBefore_of_phaseSorted (phaseSorted_trackOne env t e store hub nextId) hp1,
      actsBefore_of_phaseSorted (phaseSorted_trackOne env t e store hub nextId) hp2,
      actsBefore_of_phaseSorted (phaseSorted_trackOne env t e store hub nextId) hp3⟩
  · intro env t events store hub nextId
    exact ⟨actsBefore_of_phaseSorted (phaseSorted_trackBatch env t events store hub nextId) hp1,
      actsBefore_of_phaseSorted (phaseSorted_trackBatch env t events store hub nextId) hp2,
      actsBefore_of_phaseSorted (phaseSorted_trackBatch env t events store hub nextId) hp3⟩

/-- C2 (witness): the amended ordering at a concrete successful call. -/
theorem C2_witness :
    ActsBefore isIndexWrite isBroadcast (trackOne envOK "tA" evSignup [] [] 1).trace :=
  (C2_amended.1 envOK "tA" evSignup [] [] 1).2.1

/-- C4: tenant isolation of broadcast — a delivery made by
broadcastEvent always goes to a registered connection of the broadcast
tenant and carries the broadcast row, and every delivery made by either
ingestion handler goes to a connection of the ingesting tenant, over all
connection-map states. -/
theorem C4_tenant_isolation :
    (∀ t r hub c x, (c, x) ∈ (broadcastEvent t r hub).2 →
      c.tenantId = t ∧ x = r ∧ c ∈ hub) ∧
    (∀ env t e store hub nextId c x,
      (c, x) ∈ (trackOne env t e store hub nextId).delivered → c.tenantId = t) ∧
    (∀ env t events store hub nextId c x,
      (c, x) ∈ (trackBatch env t events store hub nextId).delivered → c.tenantId = t) := by
  refine ⟨?_, ?_, ?_⟩
  · intro t r hub c x h
    rcases broadcastEvent_delivered_sound h with ⟨h1, h2, h3, _⟩
    exact ⟨h1, h2, h3⟩
  · intro env t e store hub nextId c x h
    obtain ⟨ev, props, uid, sid⟩ := e
    rcases ev with _ | ty
    · simp [trackOne] at h
    · by_cases h1 : ty = ""
      · simp [trackOne, h1] at h
      · by_cases h2 : env.insertFails 0
        · simp [trackOne, h1, h2] at h
        · by_cases h3 : env.indexFails
          · simp [trackOne, h1, h2, h3] at h
          · have hd : (trackOne env t ⟨some ty, props, uid, sid⟩ store hub nextId).delivered
                = (broadcastEvent t ⟨nextId, t, ty, props, uid, sid, env.now⟩ hub).2 := by
              simp [trackOne, h1, h2, h3]
            rw [hd] at h
            exact (broadcastEvent_delivered_sound h).1
  · intro env t events store hub nextId c x h
    by_cases h0 : events = []
    · simp [trackBatch, h0] at h
    · rcases hres : (insertLoop env t events nextId 0).2 with _ | rows
      · simp [trackBatch, h0, hres] at h
      · by_cases h3 : env.indexFails
        · simp [trackBatch, h0, hres, h3] at h
        · have hd : (trackBatch env t events store hub nextId).delivered
              = (broadcastAll t rows hub).2 := by
            simp [trackBatch, h0, hres, h3]
          rw [hd] at h
          exact (broadcastAll_delivered_sound h).1

/-- C4 (witness): a delivery observed at a concrete broadcast satisfies
the isolation properties. -/
theorem C4_witness :
    connA.tenantId = "tA" ∧ rowSignup = rowSignup ∧ connA ∈ [connB, connA] :=
  C4_tenant_isolation.1 "tA" rowSignup [connB, connA] connA rowSignup (by decide)

/-- C6: broadcast survives a broken connection — every live connection of
the tenant still receives the event, the broken connection is removed
from the map by the failed write, and the failure never surfaces to the
ingesting caller (the track call still reports success). -/
theorem C6_broadcast_fault_isolation :
    (∀ t r hub c, c ∈ hub → c.tenantId = t → c.broken = false →
      (c, r) ∈ (broadcastEvent t r hub).2) ∧
    (∀ t r hub c, c.tenantId = t → c.broken = true →
      c ∉ (broadcastEvent t r hub).1) ∧
    (∀ env t e store hub nextId ty, e.event = some ty → ty ≠ "" →
      env.insertFails 0 = false → env.indexFails = false →
      (trackOne env t e store hub nextId).resp = Resp.created [nextId]) := by
  refine ⟨?_, ?_, ?_⟩
  · intro t r hub c hm ht hb
    exact broadcastEvent_delivered_complete hm ht hb
  · intro t r hub c ht hb
    exact broadcastEvent_removes_broken ht hb
  · intro env t e store hub nextId ty hty hne hins hidx
    simp [trackOne, hty, hne, hins, hidx]

/-- C6 (witness): with a broken and a live connection of the same
tenant, the live one is delivered to, the broken one is removed, and the
ingestion call still reports success. -/
theorem C6_witness :
    (connA, rowSignup) ∈ (broadcastEvent "tA" rowSignup [connABroken, connA]).2 ∧
    connABroken ∉ (broadcastEvent "tA" rowSignup [connABroken, connA]).1 ∧
    (trackOne envOK "tA" evSignup [] [connABroken, connA] 1).resp = Resp.created [1] :=
  ⟨C6_broadcast_fault_isolation.1 "tA" rowSignup [connABroken, connA] connA (by decide) rfl rfl,
   C6_broadcast_fault_isolation.2.1 "tA" rowSignup [connABroken, connA] connABroken rfl rfl,
   C6_broadcast_fault_isolation.2.2 envOK "tA" evSignup [] [connABroken, connA] 1 "signup"
     rfl (by decide) rfl rfl⟩


theorem hundredth_ne_third (m : ℤ) : (m : ℚ) / 100 ≠ 100 / 3 := by
  intro h
  field_simp at h
  have h2 : m * 3 = 10000 := by exact_mod_cast h
  omega

theorem tenth_ne_third (m : ℤ) : (m : ℚ) / 10 ≠ 100 / 3 := by
  intro h
  field_simp at h
  have h2 : m * 3 = 1000 := by exact_mod_cast h
  omega

/-- The two passes of the funnel computation, with an arbitrary starting
index, produce exactly the per-index report of the rounded conversion
formula. -/
theorem applyConversion_funnelRaw (docs : List Doc) (t : String) (tw : Nat) :
    ∀ (evs : List String) (i0 c0 : Nat),
      applyConversion c0 (funnelRaw docs t tw evs i0) i0 =
        (List.range evs.length).map (fun j =>
          ⟨i0 + j + 1, evs.getD j "", stepCount docs t (evs.getD j "") tw,
            stepUniqueUsers docs t (evs.getD j "") tw,
            if i0 + j = 0 then 100
            else if 0 < c0 then
              toFixed2 ((stepCount docs t (evs.getD j "") tw : ℚ) / (c0 : ℚ) * 100)
            else 0⟩) := by
  intro evs
  induction evs with
  | nil =>
    intro i0 c0
    simp [funnelRaw, applyConversion]
  | cons ev rest ih =>
    intro i0 c0
    rw [List.length_cons, List.range_succ_eq_map, List.map_cons, List.map_map]
    simp only [funnelRaw, applyConversion]
    congr 1
    · by_cases hi : i0 = 0 <;> simp [hi]
    · rw [ih (i0 + 1) c0]
      apply List.map_congr_left
      intro j hj
      have e1 : i0 + 1 + j = i0 + (j + 1) := by omega
      simp [Function.comp, Nat.succ_eq_add_one, e1]

/-- C8 (amended): the funnel report counts every step independently
within the time window; the first step reports conversion rate 100 and
each later step reports `100 * count[i] / count[0]` rounded to two
decimals by toFixed(2) (0 when the first count is 0), independent of
user overlap across steps. -/
theorem C8_amended (docs : List Doc) (t : String) (events : List String) (tw : Nat) :
    getFunnelAnalysis docs t events tw = funnelSpec docs t events tw := by
  rcases events with _ | ⟨e0, rest⟩
  · simp [getFunnelAnalysis, funnelRaw, applyConversion, funnelSpec]
  · have hc0 : (match funnelRaw docs t tw (e0 :: rest) 0 with
        | [] => 0
        | r :: _ => r.count) = stepCount docs t e0 tw := by
      simp [funnelRaw]
    simp only [getFunnelAnalysis]
    rw [hc0, applyConversion_funnelRaw docs t tw (e0 :: rest) 0 (stepCount docs t e0 tw)]
    simp only [funnelSpec]
    apply List.map_congr_left
    intro j hj
    simp

/-- C8 (counterexample): with independent step counts [3, 1] the second
step's conversion rate is toFixed(2)-rounded and therefore differs from
the claimed exact value 100 * 1 / 3. -/
theorem C8_counterexample :
    ((getFunnelAnalysis funnelDocs "t" ["a", "b"] 10).getD 0 fallbackStep).count = 3 ∧
    ((getFunnelAnalysis funnelDocs "t" ["a", "b"] 10).getD 1 fallbackStep).count = 1 ∧
    ((getFunnelAnalysis funnelDocs "t" ["a", "b"] 10).getD 1 fallbackStep).conversion_rate
      ≠ 100 * (1 : ℚ) / 3 := by
  refine ⟨by decide, by decide, ?_⟩
  have hval : ((getFunnelAnalysis funnelDocs "t" ["a", "b"] 10).getD 1
        fallbackStep).conversion_rate = toFixed2 ((1 : ℚ) / 3 * 100) := by
    simp [getFunnelAnalysis, funnelRaw, applyConversion, stepCount, stepUniqueUsers,
      docMatches, funnelDocs]
  rw [hval, toFixed2]
  intro h
  exact hundredth_ne_third ⌊(1 : ℚ) / 3 * 100 * 100 + 1 / 2⌋ (by rw [h]; norm_num)

/-- C8 (witness): the amended equality evaluated at the concrete
document set with counts [3, 1]. -/
theorem C8_witness :
    getFunnelAnalysis funnelDocs "t" ["a", "b"] 10 = funnelSpec funnelDocs "t" ["a", "b"] 10 :=
  C8_amended funnelDocs "t" ["a", "b"] 10

/-- C9 (amended): the usage growth rate equals the percentage change
between the two half sums rounded to one decimal by toFixed(1), and is
exactly 0 whenever the first-half sum is 0. -/
theorem C9_amended (counts : List Nat) :
    getUsageGrowthRate counts = toFixed1 (specGrowthRate counts) ∧
    ((counts.take (counts.length / 2)).foldl (· + ·) 0 = 0 → getUsageGrowthRate counts = 0) := by
  have hf : (⌊(0 : ℚ) * 10 + 1 / 2⌋ : ℤ) = 0 := by
    rw [show (0 : ℚ) * 10 + 1 / 2 = 1 / 2 by norm_num]
    apply Int.floor_eq_zero_iff.mpr
    rw [Set.mem_Ico]
    norm_num
  have hz : toFixed1 0 = 0 := by
    rw [toFixed1, hf]
    norm_num
  constructor
  · by_cases h : (counts.take (counts.length / 2)).foldl (· + ·) 0 = 0
    · simp [getUsageGrowthRate, specGrowthRate, h, hz]
    · have hpos : 0 < (counts.take (counts.length / 2)).foldl (· + ·) 0 :=
        Nat.pos_of_ne_zero h
      simp [getUsageGrowthRate, specGrowthRate, h, hpos]
  · intro h
    simp [getUsageGrowthRate, h]

/-- C9 (witness): a series whose first half sums to 0 yields growth rate
exactly 0. -/
theorem C9_witness : getUsageGrowthRate [0, 5] = 0 :=
  (C9_amended [0, 5]).2 (by decide)

/-- C9 (counterexample): for the series [3, 4] the returned growth rate
is toFixed(1)-rounded and therefore differs from the exact percentage
change between the half sums. -/
theorem C9_counterexample : getUsageGrowthRate [3, 4] ≠ specGrowthRate [3, 4] := by
  have h1 : getUsageGrowthRate [3, 4] = toFixed1 (((4 : ℚ) - 3) / 3 * 100) := by
    simp [getUsageGrowthRate]
  have h2 : specGrowthRate [3, 4] = 100 / 3 := by
    simp [specGrowthRate]
    norm_num
  rw [h1, h2, toFixed1]
  exact tenth_ne_third _

end MultiTenantAnalytics
